import Mathlib

set_option maxRecDepth 100000

/-!
Verification of the WarPrisoners CSV-to-RDF converter.

The development shallowly embeds the row-to-graph mapping engine of
`csv_to_rdf.py` together with the column mapping table of `mapping.py`.
RDF graphs are modelled as finite sets of (subject, predicate, object)
triples, mirroring rdflib's set semantics.  The converter functions of
`converters.py` are not part of the available sources; they are modelled
from the specification and marked as such.
-/

namespace WarPrisoners

/-! ## RDF objects and triples -/

/-- An RDF object: a plain literal, a typed date literal (`datetime.date`
values get `XSD.date`), a year-only date value, a language-tagged literal,
or a resource (URI). -/
inductive RDFObj where
  | lit (s : String)
  | date (y m d : Nat)
  | year (y : Nat)
  | langlit (s : String) (lang : String)
  | res (u : String)
deriving DecidableEq, Repr

/-- A triple (subject URI, predicate URI, object), as stored in an rdflib
graph. -/
abbrev Triple : Type := String × String × RDFObj

/-- A graph is a set of triples (rdflib `Graph` has set semantics). -/
abbrev RGraph : Type := Finset Triple

/-! ## Namespaces (csv_to_rdf.py lines 19-27; `namespaces.py`, imported by
`mapping.py`, is not among the sources, but `csv_to_rdf.py` declares the
same namespace constants, which we use). -/

def SCHEMA_NS (s : String) : String := "http://ldf.fi/schema/warsa/prisoners/" ++ s
def DATA_NS (s : String) : String := "http://ldf.fi/warsa/prisoners/" ++ s
def BIOC (s : String) : String := "http://ldf.fi/schema/bioc/" ++ s

def foafGivenName : String := "http://xmlns.com/foaf/0.1/givenName"
def foafFamilyName : String := "http://xmlns.com/foaf/0.1/familyName"
def skosPrefLabel : String := "http://www.w3.org/2004/02/skos/core#prefLabel"
def rdfTypeUri : String := "http://www.w3.org/1999/02/22-rdf-syntax-ns#type"
def rdfPropertyUri : String := "http://www.w3.org/1999/02/22-rdf-syntax-ns#Property"

/-- The instance class used by the driver:
`SCHEMA_NS.PrisonerOfWar` (csv_to_rdf.py line 184). -/
def instanceClass : String := SCHEMA_NS "PrisonerOfWar"

/-! ## String primitives

The embedding works on `String.data` character lists so that every
operation is an executable structural recursion.  The whitespace class
is Python's `\s` / `str.strip` set, restricted to its ASCII members (the
source data is Latin text). -/

def isPyWs (c : Char) : Bool :=
  c = ' ' || c = '\t' || c = '\n' || c = '\r' || c = '\x0b' || c = '\x0c'

/-- Python `str.strip()`: drop leading and trailing whitespace. -/
def pyStrip (s : String) : String :=
  String.mk ((s.data.dropWhile isPyWs).reverse.dropWhile isPyWs).reverse

/-- Split a character list at every occurrence of one separator
character (Python `str.split(sep)` for a one-character separator). -/
def splitCharAux (sep : Char) : List Char → List Char → List (List Char)
  | acc, [] => [acc.reverse]
  | acc, c :: rest =>
      if c = sep then acc.reverse :: splitCharAux sep [] rest
      else splitCharAux sep (c :: acc) rest

def strSplitChar (sep : Char) (s : String) : List String :=
  (splitCharAux sep [] s.data).map String.mk

/-- Split at every space or comma (the tokenization of the person-name
converter). -/
def splitWsCommaAux : List Char → List Char → List (List Char)
  | acc, [] => [acc.reverse]
  | acc, c :: rest =>
      if c = ' ' || c = ',' then acc.reverse :: splitWsCommaAux [] rest
      else splitWsCommaAux (c :: acc) rest

/-- Join strings with single spaces (Python `' '.join`). -/
def joinSpace : List String → String
  | [] => ""
  | [x] => x
  | x :: y :: rest => x ++ " " ++ joinSpace (y :: rest)

/-- Numeric value of a decimal digit string (Python `int` on digits). -/
def digitsVal (l : List Char) : Nat :=
  l.foldl (fun a c => 10 * a + (c.toNat - 48)) 0

/-! ## Converters (modelled from the spec; `converters.py` is not in the
available sources). -/

/-- Result of a field converter: a string value, a date, a year-only
date, or the absent signal (Python `None` / empty value). -/
inductive ConvResult where
  | str (s : String)
  | date (y m d : Nat)
  | year (y : Nat)
  | none_
deriving DecidableEq, Repr

/-- The closed set of converter kinds referenced by the mapping table. -/
inductive ConverterKind where
  | dates
  | stripDash
deriving DecidableEq, Repr

/-- Modelled from the spec: `converters.convert_dates` is not in the
available sources.  The spec says the date converter accepts `D.M.YYYY`
(yielding a calendar date), passes a bare 4-digit year through as a
year-only date, and returns absent on unparseable input. -/
def convert_dates (s : String) : ConvResult :=
  match strSplitChar '.' s with
  | [d, m, y] =>
      if d ≠ "" && m ≠ "" && y ≠ "" &&
         d.data.all Char.isDigit && m.data.all Char.isDigit &&
         y.data.all Char.isDigit then
        ConvResult.date (digitsVal y.data) (digitsVal m.data) (digitsVal d.data)
      else ConvResult.none_
  | [y] =>
      if y.data.length = 4 && y.data.all Char.isDigit then
        ConvResult.year (digitsVal y.data)
      else ConvResult.none_
  | _ => ConvResult.none_

/-- Modelled from the spec: `converters.strip_dash` is not in the
available sources.  The spec says a standalone dash represents "none" and
becomes absent; any other value passes through. -/
def strip_dash (s : String) : ConvResult :=
  if s = "-" then ConvResult.none_ else ConvResult.str s

/-- Dispatch a converter kind (spec design note: a closed set of
converter kinds dispatched by a single switch). -/
def applyConverter : ConverterKind → String → ConvResult
  | ConverterKind.dates, s => convert_dates s
  | ConverterKind.stripDash, s => strip_dash s

/-- Modelled from the spec: `converters.convert_person_name` is not in
the available sources.  The spec says: family name first, the rest are
given names, returning (givenNames, familyName, fullDisplayName), where
the display form puts given names first ("Meikäläinen Matti" becomes
("Matti", "Meikäläinen", "Matti Meikäläinen")); given names may be
empty. -/
def convert_person_name (s : String) : String × String × String :=
  let toks := ((splitWsCommaAux [] s.data).map String.mk).filter (fun t => t ≠ "")
  match toks with
  | [] => ("", "", "")
  | family :: given =>
      let firstnames := joinSpace given
      let fullname := if firstnames = "" then family else firstnames ++ " " ++ family
      (firstnames, family, fullname)

/-- Python truthiness of a converter result, and its literalization
(csv_to_rdf.py lines 110-111): falsy values (absent, empty string, zero
year) yield no literal; a `datetime.date` value gets the `XSD.date`
type tag; everything else an untyped literal. -/
def truthyLit : ConvResult → Option RDFObj
  | ConvResult.str s => if s = "" then none else some (RDFObj.lit s)
  | ConvResult.date y m d => some (RDFObj.date y m d)
  | ConvResult.year y => if y = 0 then none else some (RDFObj.year y)
  | ConvResult.none_ => none

/-! ## Mapping descriptors (mapping.py) -/

/-- A per-column mapping descriptor, the dict stored in
`PRISONER_MAPPING`.  `slash_separated` mirrors `mapping.get('slash_separated')`
in csv_to_rdf.py line 89: no entry of `PRISONER_MAPPING` carries this
key, so the lookup yields the falsy `None`, here the default `false`. -/
structure MappingDescr where
  uri : String
  value_separator : Option String := none
  converter : Option ConverterKind := none
  name_fi : Option String := none
  name_en : Option String := none
  reify_order_number : Bool := false
  slash_separated : Bool := false
deriving DecidableEq, Repr

/-- The mapping table `PRISONER_MAPPING` of mapping.py, in dict insertion
order. -/
def PRISONER_MAPPING : List (String × MappingDescr) := [
  ("syntymäaika", { uri := SCHEMA_NS "birth_date",
                    converter := some ConverterKind.dates,
                    value_separator := some "/",
                    name_fi := some "Syntymäaika",
                    name_en := some "Date of birth" }),
  ("syntymäpaikka", { uri := SCHEMA_NS "birth_place",
                      value_separator := some "/",
                      name_fi := some "Syntymäkunta",
                      name_en := some "Municipality of birth" }),
  ("kotipaikka", { uri := SCHEMA_NS "home_place",
                   value_separator := some "/",
                   name_fi := some "Kotikunta",
                   name_en := some "Home municipality" }),
  ("asuinpaikka", { uri := SCHEMA_NS "residence_place",
                    name_fi := some "Asuinpaikka",
                    name_en := some "Municipality of residence",
                    value_separator := some "/" }),
  ("ammatti", { uri := BIOC "has_occupation",
                name_fi := some "Ammatti",
                name_en := some "Occupation",
                value_separator := some "/" }),
  ("siviilisääty", { uri := SCHEMA_NS "marital_status",
                     name_fi := some "Siviilisääty",
                     name_en := some "Marital Status",
                     value_separator := some "/" }),
  ("lasten lkm", { uri := SCHEMA_NS "amount_children",
                   converter := some ConverterKind.stripDash,
                   name_fi := some "Lasten lukumäärä",
                   name_en := some "Amount of children",
                   value_separator := some "/" }),
  ("sotilasarvo", { uri := SCHEMA_NS "rank",
                    name_fi := some "Sotilasarvo",
                    name_en := some "Military Rank",
                    value_separator := some "/" }),
  ("joukko-osasto", { uri := SCHEMA_NS "unit",
                      name_en := some "Military Unit",
                      name_fi := some "Joukko-osasto" }),
  ("vangiksi aika", { uri := SCHEMA_NS "time_captured",
                      converter := some ConverterKind.dates,
                      value_separator := some "/",
                      name_en := some "Date captured",
                      name_fi := some "Vangiksi jäämisen päivämäärä" }),
  ("vangiksi paikka, kunta", { uri := SCHEMA_NS "place_captured_municipality",
                               value_separator := some "/",
                               name_en := some "Municipality where captured",
                               name_fi := some "Vangiksi jäämisen kunta" }),
  ("vangiksi paikka, kylä, kaupunginosa", { uri := SCHEMA_NS "place_captured",
                                            value_separator := some "/",
                                            name_en := some "Place where captured",
                                            name_fi := some "Vangiksi jäämisen paikka" }),
  ("vangiksi, taistelupaikka", { uri := SCHEMA_NS "place_captured_battle",
                                 value_separator := some "/",
                                 name_en := some "Battle location where captured",
                                 name_fi := some "Vangiksi jäämisen taistelupaikka" }),
  ("selvitys vangiksi jäämisestä", { uri := SCHEMA_NS "explanation",
                                     name_en := some "Description of capturing",
                                     name_fi := some "Selvitys vangiksi jäämisestä" }),
  ("palannut", { uri := SCHEMA_NS "returned_date",
                 converter := some ConverterKind.dates,
                 value_separator := some "/",
                 name_en := some "Date of returning",
                 name_fi := some "Palaamisaika" }),
  ("kuollut", { uri := SCHEMA_NS "death_date",
                converter := some ConverterKind.dates,
                value_separator := some "/",
                name_en := some "Date of death",
                name_fi := some "Kuolinaika" }),
  ("kuolinsyy", { uri := SCHEMA_NS "cause_of_death",
                  name_en := some "Cause of death",
                  name_fi := some "Kuolinsyy" }),
  ("kuolinpaikka", { uri := SCHEMA_NS "death_place",
                     value_separator := some "/",
                     name_en := some "Place of death",
                     name_fi := some "kuolinpaikka" }),
  ("hautauspaikka", { uri := SCHEMA_NS "burial_place",
                      value_separator := some ";",
                      name_en := some "Place of burial",
                      name_fi := some "Hautauspaikka" }),
  ("vankeuspaikat", { uri := SCHEMA_NS "camps_and_hospitals",
                      value_separator := some ";",
                      reify_order_number := true,
                      name_en := some "Captivity locations",
                      name_fi := some "Vankeuspaikat" }),
  (" muita tietoja", { uri := SCHEMA_NS "other_information",
                       value_separator := some ";",
                       name_fi := some "Muita tietoja",
                       name_en := some "Other information" }),
  ("palanneiden kuolinaika", { uri := SCHEMA_NS "death_date",
                               converter := some ConverterKind.dates,
                               value_separator := some "/" }),
  ("valokuva", { uri := SCHEMA_NS "photograph",
                 name_fi := some "Valokuva",
                 name_en := some "Photograph" }),
  ("radiossa, PM:n valvontatoimiston radiokatsaukset",
      { uri := SCHEMA_NS "radio_report",
        value_separator := some ";",
        name_en := some "Radio report",
        name_fi := some "Radiokatsaus" }),
  ("Jatkosodan VEN kuulustelulomakkeet F 473, palautetut",
      { uri := SCHEMA_NS "russian_interrogation_sheets",
        value_separator := some ";",
        name_en := some "Russian interrogation sheets",
        name_fi := some "Jatkosodan venäläiset kuulustelulomakkeet" }),
  ("Talvisodan kortisto", { uri := SCHEMA_NS "winterwar_card_file",
                            name_en := some "Winter War card file",
                            name_fi := some "Talvisodan kortisto" }),
  ("takavarikoitu omaisuus, arvo markoissa",
      { uri := SCHEMA_NS "confiscated_possessions",
        name_en := some "Confiscated possessions",
        name_fi := some "takavarikoitu omaisuus, arvo markoissa" }),
  ("suomenruotsalainen", { uri := SCHEMA_NS "swedish_finn",
                           name_en := some "Swedish finn",
                           name_fi := some "Suomenruotsalainen" }),
  ("Karagandan kortisto", { uri := SCHEMA_NS "karaganda_card_file",
                            name_en := some "Karaganda card file",
                            name_fi := some "Karagandan kortisto" }),
  ("Jatkosodan kortisto", { uri := SCHEMA_NS "continuation_war_card_file",
                            name_en := some "Continuation War card file",
                            name_fi := some "Jatkosodan kortisto" }),
  ("Jatkosodan VEN kuulustelulomakkeet, kuolleet F 465",
      { uri := SCHEMA_NS "continuation_war_russian_card_file",
        name_en := some "Continuation War russian card file",
        name_fi := some "Kuolleiden Jatkosodan venäläiset kuulustelulomakkeet" }),
  ("Talvisodan kokoelma", { uri := SCHEMA_NS "winter_war_collection",
                            name_en := some "Winter War collection",
                            name_fi := some "Talvisodan kokoelma" }),
  ("Talvisodan kokoelma, Moskovasta tulevat",
      { uri := SCHEMA_NS "winter_war_collection_from_moscow",
        value_separator := some ";",
        name_en := some "Winter War collection (Moscow)",
        name_fi := some "Talvisodan kokoelma (Moskovasta)" }),
  ("lentolehtinen", { uri := SCHEMA_NS "flyer",
                      value_separator := some ";",
                      name_en := some "Flyer",
                      name_fi := some "Lentolehtinen" }),
  ("muistelmat, lehtijutut, tietokirjat, tutkimukset, Kansa taisteli-lehti",
      { uri := SCHEMA_NS "memoirs",
        name_en := some "Memoirs",
        name_fi := some "Muistelmat ja lehtijutut" }),
  ("TV-ja radio-ohjelmat, tallenne video/audio",
      { uri := SCHEMA_NS "recording",
        name_en := some "Recording (video/audio)",
        name_fi := some "Tallenne (video/audio)" }),
  ("Karjalan kansallisarkiston dokumentit",
      { uri := SCHEMA_NS "karelian_archive_documents",
        name_en := some "Karelian archive documents",
        name_fi := some "Karjalan kansallisarkiston dokumentit" })]

/-! ## Inline source extraction (csv_to_rdf.py lines 48-60)

`read_column_with_sources` runs
`re.search(r'(.+) \(([^()]+)\)(.*)', orig_value)`.  The embedding spells
out the semantics of that one pattern: `re.search` finds the smallest
start position admitting a match; at that position the greedy `(.+)`
takes the longest newline-free group 1 followed by the literal
characters space and `(`; `([^()]+)` is then forced to be the maximal
run of non-parenthesis characters, which must be non-empty and followed
by `)`; `(.*)` takes the rest of the line.  Group 2 is always non-empty,
so the Python `if sources:` test always fires on a match; the warning
about trailing content fires exactly when group 3 is non-empty. -/

/-- `.` of Python regexes: any character except a newline. -/
def nonNl (c : Char) : Bool := c ≠ '\n'

/-- `[^()]` of the source pattern. -/
def noParenChar (c : Char) : Bool := c ≠ '(' && c ≠ ')'

/-- Does the pattern `(.+) \(([^()]+)\)(.*)` match the suffix `t` with
group 1 of length `k`? -/
def matchCond (t : List Char) (k : Nat) : Prop :=
  1 ≤ k ∧ (∀ c ∈ t.take k, nonNl c) ∧
  (t.drop k).head? = some ' ' ∧ (t.drop (k + 1)).head? = some '(' ∧
  (t.drop (k + 2)).takeWhile noParenChar ≠ [] ∧
  ((t.drop (k + 2)).dropWhile noParenChar).head? = some ')'

instance (t : List Char) (k : Nat) : Decidable (matchCond t k) := by
  unfold matchCond
  infer_instance

/-- The greedy choice of group 1 at a fixed start: the largest matching
`k` (Python backtracks `(.+)` from the longest group downwards). -/
def bestK (t : List Char) : Option Nat :=
  ((List.range t.length).filterMap
    (fun k => if matchCond t k then some k else none)).getLast?

/-- `re.search`: the smallest start position with a match, together with
the greedy group-1 length there. -/
def searchStart (s : List Char) : Option (Nat × Nat) :=
  ((List.range s.length).filterMap
    (fun i => match bestK (s.drop i) with
              | some k => some (i, k)
              | none => none)).head?

/-- csv_to_rdf.py lines 48-60: split a raw value into the value proper,
the optional comma-split trimmed source labels, and whether the warning
about content trailing the sources was logged. -/
def read_column_with_sources (s : String) : String × Option (List String) × Bool :=
  match searchStart s.data with
  | none => (s, none, false)
  | some (i, k) =>
      let t := s.data.drop i
      let value := String.mk (t.take k)
      let b := (t.drop (k + 2)).takeWhile noParenChar
      let rest := ((t.drop (k + 2)).dropWhile noParenChar).drop 1
      let trash := rest.takeWhile nonNl
      (value, some ((strSplitChar ',' (String.mk b)).map pyStrip), !trash.isEmpty)

/-! ## Field splitting (csv_to_rdf.py lines 89-95) -/

/-- `re.split(r'\s/\s', s)`: split on every occurrence of a whitespace
character, a slash, and a whitespace character, cut left to right. -/
def reSplitSlashAux : List Char → List Char → List (List Char)
  | acc, a :: '/' :: b :: rest =>
      if isPyWs a && isPyWs b then
        acc.reverse :: reSplitSlashAux [] rest
      else
        reSplitSlashAux (a :: acc) ('/' :: b :: rest)
  | acc, c :: rest => reSplitSlashAux (c :: acc) rest
  | acc, [] => [acc.reverse]
termination_by _ l => l.length

def reSplitSlash (s : String) : List String :=
  (reSplitSlashAux [] s.data).map String.mk

/-! ## The row mapper (csv_to_rdf.py lines 62-114) -/

/-- One piece of a field inside the value loop (csv_to_rdf.py lines
107-112): apply the descriptor's converter if present, then emit a
statement exactly when the result is truthy. -/
def pieceTriple (entity_uri : String) (descr : MappingDescr) (piece : String) :
    Option Triple :=
  let v : ConvResult :=
    match descr.converter with
    | some k => applyConverter k piece
    | none => ConvResult.str piece
  (truthyLit v).map (fun o => (entity_uri, descr.uri, o))

/-- The iterable of values of one field (csv_to_rdf.py lines 94-101):
split and trim when the descriptor carries the key `slash_separated`
(which no `PRISONER_MAPPING` entry does), then extract inline sources
from each piece under the same flag; otherwise the single trimmed
value. -/
def columnValues (descr : MappingDescr) (raw : String) : List String :=
  let values : List String :=
    if descr.slash_separated then (reSplitSlash raw).map pyStrip
    else [pyStrip raw]
  if descr.slash_separated then
    values.map (fun v => (read_column_with_sources v).1)
  else values

/-- The statements produced for one mapped column of one row
(csv_to_rdf.py lines 87-112): the unconditional row-type statement plus
the statements of the surviving values. -/
def columnTriples (entity_uri cls : String) (descr : MappingDescr) (raw : String) :
    RGraph :=
  insert ((entity_uri, rdfTypeUri, RDFObj.res cls) : Triple)
    ((columnValues descr raw).filterMap (pieceTriple entity_uri descr)).toFinset

/-- `row[column_name]` on a pandas row: look the column name up in the
table's header; a name absent from the header raises `KeyError`. -/
def cell (columns row : List String) (col : String) : Option String :=
  (columns.zip row).lookup col

/-- The `for column_name in self.mapping` loop of csv_to_rdf.py lines
81-112, accumulating into `row_rdf`; a missing column propagates the
`KeyError`. -/
def mapColumns (entity_uri : String) (columns row : List String) (cls : String) :
    List (String × MappingDescr) → RGraph → Except String RGraph
  | [], acc => Except.ok acc
  | ce :: rest, acc =>
      match cell columns row ce.1 with
      | none => Except.error ("KeyError: " ++ ce.1)
      | some v =>
          mapColumns entity_uri columns row cls rest
            (acc ∪ columnTriples entity_uri cls ce.2 v)

/-- csv_to_rdf.py lines 62-114, `map_row_to_rdf`: decompose the identity
field (`row[0]`, the first cell) with the person-name converter, emit
the given-name statement when given names are non-empty and the
family-name and preferred-label statements always, then process every
mapped column. -/
def map_row_to_rdf (entity_uri : String) (columns row : List String)
    (mapping : List (String × MappingDescr)) (cls : String) :
    Except String RGraph :=
  match row.head? with
  | none => Except.error "KeyError: 0"
  | some name0 =>
      let fln := convert_person_name name0
      let base : RGraph :=
        (if fln.1 ≠ "" then
           {((entity_uri, foafGivenName, RDFObj.lit fln.1) : Triple)}
         else (∅ : RGraph)) ∪
        {((entity_uri, foafFamilyName, RDFObj.lit fln.2.1) : Triple),
         ((entity_uri, skosPrefLabel, RDFObj.lit fln.2.2) : Triple)}
      mapColumns entity_uri columns row cls mapping base

/-! ## The driver loop (csv_to_rdf.py lines 154-167) -/

/-- Python's `str` on a row index: the canonical decimal numeral,
written with structural recursion on a fuel bound so that it reduces by
iota (the fuel `n + 1` always suffices, as each step divides by ten). -/
def natDecimalGo : Nat → Nat → List Char
  | 0, _ => []
  | fuel + 1, n =>
      if n < 10 then [Char.ofNat (48 + n)]
      else natDecimalGo fuel (n / 10) ++ [Char.ofNat (48 + n % 10)]

def natDecimal (n : Nat) : String := String.mk (natDecimalGo (n + 1) n)

/-- csv_to_rdf.py line 161: `DATA_NS['prisoner_' + str(index)]`. -/
def prisoner_uri (index : Nat) : String := DATA_NS ("prisoner_" ++ natDecimal index)

/-- The in-memory table produced by the (external) CSV loader: a header
of column names and the rows' cells. -/
structure Table where
  columns : List String
  rows : List (List String)
deriving DecidableEq, Repr

/-- `self.data += row_rdf` (csv_to_rdf.py line 162): rdflib merges the
row graph into the data graph by set union. -/
def merge_graph (data g : RGraph) : RGraph := data ∪ g

/-- The schema loop of csv_to_rdf.py lines 164-167: for every descriptor
carrying the key `name_fi`, add the Finnish preferred label and the
property-type statement. -/
def build_schema (mapping : List (String × MappingDescr)) : RGraph :=
  mapping.foldl
    (fun acc ce =>
      match ce.2.name_fi with
      | some l =>
          insert ((ce.2.uri, rdfTypeUri, RDFObj.res rdfPropertyUri) : Triple)
            (insert ((ce.2.uri, skosPrefLabel, RDFObj.langlit l "fi") : Triple) acc)
      | none => acc)
    (∅ : RGraph)

/-- The row loop of `process_rows`.  The result carries the data graph
accumulated so far, the schema graph, and the uncaught exception, if
any: on a row error the loop aborts with the data graph as already
merged and the schema graph never built. -/
def process_rows_aux (columns : List String) :
    List (List String) → Nat → RGraph → RGraph × RGraph × Option String
  | [], _, data => (data, build_schema PRISONER_MAPPING, none)
  | row :: rest, idx, data =>
      match map_row_to_rdf (prisoner_uri idx) columns row PRISONER_MAPPING instanceClass with
      | Except.ok g => process_rows_aux columns rest (idx + 1) (merge_graph data g)
      | Except.error e => (data, (∅ : RGraph), some e)

/-- csv_to_rdf.py lines 154-167, `process_rows`: convert each row in
order, merging into the data graph, then build the schema graph from the
mapping table. -/
def process_rows (t : Table) : RGraph × RGraph × Option String :=
  process_rows_aux t.columns t.rows 0 (∅ : RGraph)

/-! ## Helper lemmas -/

theorem digitChar_toNat : ∀ d, d < 10 → (Char.ofNat (48 + d)).toNat = 48 + d := by
  decide

theorem digitsVal_singleton (c : Char) : digitsVal [c] = c.toNat - 48 := by
  simp [digitsVal]

theorem digitsVal_concat (l : List Char) (c : Char) :
    digitsVal (l ++ [c]) = 10 * digitsVal l + (c.toNat - 48) := by
  simp [digitsVal, List.foldl_append]

theorem digitsVal_natDecimalGo (fuel : Nat) :
    ∀ n, n < fuel → digitsVal (natDecimalGo fuel n) = n := by
  induction fuel with
  | zero => omega
  | succ fuel ih =>
    intro n hn
    rw [natDecimalGo]
    by_cases h : n < 10
    · rw [if_pos h, digitsVal_singleton, digitChar_toNat n h]
      omega
    · have hdiv : n / 10 < n := Nat.div_lt_self (by omega) (by omega)
      rw [if_neg h, digitsVal_concat, ih (n / 10) (by omega),
          digitChar_toNat (n % 10) (Nat.mod_lt _ (by omega))]
      omega

theorem natDecimal_injective : Function.Injective natDecimal := by
  intro m n h
  have hd : natDecimalGo (m + 1) m = natDecimalGo (n + 1) n :=
    congrArg String.data h
  have hm := digitsVal_natDecimalGo (m + 1) m (by omega)
  rw [hd, digitsVal_natDecimalGo (n + 1) n (by omega)] at hm
  omega

/-!
## Claim C8
-/

/-- Claim C8: the subject identifier of each row is derived
deterministically from the row's position as `prisoner_<index>` under the
data namespace, and distinct row positions give distinct subject
identifiers. -/
theorem subject_identifiers_distinct (i j : Nat) (h : i ≠ j) :
    prisoner_uri i = DATA_NS ("prisoner_" ++ natDecimal i) ∧
    prisoner_uri i ≠ prisoner_uri j := by
  refine ⟨rfl, fun he => h ?_⟩
  apply natDecimal_injective
  have hdata := congrArg String.data he
  simp only [prisoner_uri, DATA_NS, String.data_append] at hdata
  have h2 := List.append_cancel_left hdata
  exact String.ext (List.append_cancel_left h2)

/-- Witness for C8 at rows 0 and 1. -/
theorem subject_identifiers_distinct_witness :
    prisoner_uri 0 = DATA_NS ("prisoner_" ++ natDecimal 0) ∧
    prisoner_uri 0 ≠ prisoner_uri 1 :=
  subject_identifiers_distinct 0 1 (by decide)

/-!
## Claim C9
-/

/-- Claim C9: merging a row's statement set into the data graph is
idempotent — merging the statement set of a row twice yields the same
data graph as merging it once (set union semantics). -/
theorem merge_row_idempotent (data : RGraph) (u : String) (columns row : List String)
    (g : RGraph)
    (h : map_row_to_rdf u columns row PRISONER_MAPPING instanceClass = Except.ok g) :
    merge_graph (merge_graph data g) g = merge_graph data g := by
  simp [merge_graph, Finset.union_assoc, Finset.union_self]

/-- All column names referenced by the mapping table. -/
def allMappedColumns : List String := PRISONER_MAPPING.map (fun ce => ce.1)

/-- A test header: a name column followed by every mapped column. -/
def testColumns : List String := "sukunimi ja etunimet" :: allMappedColumns

/-- A test row with a name and otherwise blank fields. -/
def blankRow : List String := "Meikäläinen Matti" :: allMappedColumns.map (fun _ => "")

/-- The row graph of `blankRow`. -/
def blankRowGraph : RGraph :=
  (map_row_to_rdf (prisoner_uri 0) testColumns blankRow PRISONER_MAPPING
    instanceClass).toOption.getD (∅ : RGraph)

/-- Witness for C9 on a concrete row. -/
theorem merge_row_idempotent_witness :
    merge_graph (merge_graph (∅ : RGraph) blankRowGraph) blankRowGraph =
      merge_graph (∅ : RGraph) blankRowGraph :=
  merge_row_idempotent (∅ : RGraph) (prisoner_uri 0) testColumns blankRow
    blankRowGraph (by rfl)

/-!
## Claim C1
-/

/-- Claim C1 (code bug): the descriptor of the burial-place column
declares the value separator `;` in `PRISONER_MAPPING`, yet the row
mapper never splits the field: `map_row_to_rdf` looks up the key
`slash_separated`, which no descriptor carries, so a two-place value
passes through as one unsplit statement instead of being split on the
declared separator. -/
theorem declared_separator_never_splits :
    PRISONER_MAPPING.lookup "hautauspaikka" =
      some { uri := SCHEMA_NS "burial_place", value_separator := some ";",
             name_en := some "Place of burial", name_fi := some "Hautauspaikka" } ∧
    (PRISONER_MAPPING.all (fun ce => !ce.2.slash_separated)) = true ∧
    columnTriples (prisoner_uri 0) instanceClass
      { uri := SCHEMA_NS "burial_place", value_separator := some ";",
        name_en := some "Place of burial", name_fi := some "Hautauspaikka" }
      "Paikka1; Paikka2" =
      ({((prisoner_uri 0, rdfTypeUri, RDFObj.res instanceClass) : Triple),
        ((prisoner_uri 0, SCHEMA_NS "burial_place",
          RDFObj.lit "Paikka1; Paikka2") : Triple)} : RGraph) := by
  refine ⟨by decide, by decide, by decide⟩

/-!
## Claim C4
-/

theorem process_rows_aux_schema (columns : List String) :
    ∀ rows idx data d s,
      process_rows_aux columns rows idx data = (d, s, none) →
      s = build_schema PRISONER_MAPPING := by
  intro rows
  induction rows with
  | nil =>
    intro idx data d s h
    exact (congrArg (fun p => p.2.1) h).symm
  | cons row rest ih =>
    intro idx data d s h
    rw [process_rows_aux] at h
    cases hm : map_row_to_rdf (prisoner_uri idx) columns row PRISONER_MAPPING
        instanceClass with
    | error e =>
      rw [hm] at h
      simp at h
    | ok g =>
      rw [hm] at h
      exact ih (idx + 1) (merge_graph data g) d s h

/-- Claim C4: whenever a run completes without error, the schema graph
is the one built from the mapping table alone — independent of the
table's rows — and it holds exactly two statements (one property-type
statement and one preferred-label statement) per descriptor carrying a
label. -/
theorem schema_depends_only_on_mapping (t : Table) (d s : RGraph)
    (h : process_rows t = (d, s, none)) :
    s = build_schema PRISONER_MAPPING ∧
    s.card = 2 * (PRISONER_MAPPING.filter (fun ce => ce.2.name_fi.isSome)).length := by
  have hs := process_rows_aux_schema t.columns t.rows 0 (∅ : RGraph) d s h
  subst hs
  exact ⟨rfl, by decide⟩

/-- Witness for C4 on the empty table. -/
theorem schema_depends_only_on_mapping_witness :
    build_schema PRISONER_MAPPING = build_schema PRISONER_MAPPING ∧
    (build_schema PRISONER_MAPPING).card =
      2 * (PRISONER_MAPPING.filter (fun ce => ce.2.name_fi.isSome)).length :=
  schema_depends_only_on_mapping (Table.mk [] []) (∅ : RGraph)
    (build_schema PRISONER_MAPPING) rfl

/-!
## Claim C5
-/

/-- Is this object an English-tagged literal? -/
def isEnLabel : RDFObj → Bool
  | RDFObj.langlit _ lang => lang = "en"
  | _ => false

/-- The English-labelled statements of a graph. -/
def enLabelTriples (g : RGraph) : RGraph :=
  g.filter (fun tr => isEnLabel tr.2.2)

/-- A test row whose birth-date field is set and whose other mapped
fields are blank. -/
def birthRow : List String :=
  "Meikäläinen Matti" :: "1.1.1920" :: (allMappedColumns.drop 1).map (fun _ => "")

/-- A one-row table exercising the birth-date predicate. -/
def birthTable : Table := Table.mk testColumns [birthRow]

/-- Claim C5 (counterexample): on a run whose data graph actually uses
the birth-date predicate, the schema graph carries its Finnish label but
no English-labelled statement at all — the mapping's `name_en` entries
are never emitted, so the schema entries are not bilingual. -/
theorem schema_has_no_english_label :
    (process_rows birthTable).2.2 = none ∧
    ((prisoner_uri 0, SCHEMA_NS "birth_date", RDFObj.date 1920 1 1) : Triple) ∈
      (process_rows birthTable).1 ∧
    ((SCHEMA_NS "birth_date", skosPrefLabel,
        RDFObj.langlit "Syntymäaika" "fi") : Triple) ∈ (process_rows birthTable).2.1 ∧
    ((SCHEMA_NS "birth_date", skosPrefLabel,
        RDFObj.langlit "Date of birth" "en") : Triple) ∉ (process_rows birthTable).2.1 ∧
    enLabelTriples (process_rows birthTable).2.1 = (∅ : RGraph) := by
  refine ⟨by decide, by decide, by decide, by decide, by decide⟩

/-- Claim C5 (amended): for every mapping descriptor carrying a Finnish
label, the schema graph contains one descriptive entry for its predicate
— a property-type statement and a Finnish preferred-label statement —
and no English-labelled statement is emitted at all. -/
theorem schema_entry_finnish_only
    (ce : String × MappingDescr) (hce : ce ∈ PRISONER_MAPPING)
    (hl : ce.2.name_fi.isSome = true) :
    ((ce.2.uri, rdfTypeUri, RDFObj.res rdfPropertyUri) : Triple) ∈
      build_schema PRISONER_MAPPING ∧
    ((ce.2.uri, skosPrefLabel,
        RDFObj.langlit (ce.2.name_fi.getD "") "fi") : Triple) ∈
      build_schema PRISONER_MAPPING ∧
    enLabelTriples (build_schema PRISONER_MAPPING) = (∅ : RGraph) := by
  revert hl
  revert hce
  revert ce
  decide

/-- Witness for the amended C5 at the birth-date descriptor. -/
theorem schema_entry_finnish_only_witness :
    ((SCHEMA_NS "birth_date", rdfTypeUri, RDFObj.res rdfPropertyUri) : Triple) ∈
      build_schema PRISONER_MAPPING ∧
    ((SCHEMA_NS "birth_date", skosPrefLabel,
        RDFObj.langlit ((some "Syntymäaika").getD "") "fi") : Triple) ∈
      build_schema PRISONER_MAPPING ∧
    enLabelTriples (build_schema PRISONER_MAPPING) = (∅ : RGraph) :=
  schema_entry_finnish_only
    ("syntymäaika", { uri := SCHEMA_NS "birth_date",
                      converter := some ConverterKind.dates,
                      value_separator := some "/",
                      name_fi := some "Syntymäaika",
                      name_en := some "Date of birth" })
    (by decide) (by decide)

/-!
## Claim C7
-/

/-- Claim C7: for a field piece of a descriptor (none of which are
slash-separated): with no converter the trimmed piece passes through as
a plain literal, an empty-after-trim piece yields no statement, a
converter is applied to the piece and an absent conversion yields no
statement, and a surviving conversion is emitted as
`(subject, descriptor.uri, literal)`; both converters send the empty
string to absent.  The type statement for the row is emitted for the
column in every case. -/
theorem converter_and_blank_piece_handling (u cls : String) (d : MappingDescr)
    (raw : String) (hs : d.slash_separated = false) :
    (d.converter = none → pyStrip raw ≠ "" →
       columnTriples u cls d raw =
         ({((u, rdfTypeUri, RDFObj.res cls) : Triple),
           ((u, d.uri, RDFObj.lit (pyStrip raw)) : Triple)} : RGraph)) ∧
    (d.converter = none → pyStrip raw = "" →
       columnTriples u cls d raw =
         ({((u, rdfTypeUri, RDFObj.res cls) : Triple)} : RGraph)) ∧
    (d.converter = some ConverterKind.dates →
       truthyLit (convert_dates (pyStrip raw)) = none →
       columnTriples u cls d raw =
         ({((u, rdfTypeUri, RDFObj.res cls) : Triple)} : RGraph)) ∧
    (d.converter = some ConverterKind.stripDash →
       truthyLit (strip_dash (pyStrip raw)) = none →
       columnTriples u cls d raw =
         ({((u, rdfTypeUri, RDFObj.res cls) : Triple)} : RGraph)) ∧
    (d.converter = some ConverterKind.dates →
       (truthyLit (convert_dates (pyStrip raw))).isSome = true →
       columnTriples u cls d raw =
         ({((u, rdfTypeUri, RDFObj.res cls) : Triple),
           ((u, d.uri,
             (truthyLit (convert_dates (pyStrip raw))).getD (RDFObj.lit "")) :
               Triple)} : RGraph)) ∧
    (d.converter = some ConverterKind.stripDash →
       (truthyLit (strip_dash (pyStrip raw))).isSome = true →
       columnTriples u cls d raw =
         ({((u, rdfTypeUri, RDFObj.res cls) : Triple),
           ((u, d.uri,
             (truthyLit (strip_dash (pyStrip raw))).getD (RDFObj.lit "")) :
               Triple)} : RGraph)) ∧
    truthyLit (convert_dates "") = none ∧
    truthyLit (strip_dash "") = none ∧
    truthyLit (ConvResult.str "") = none := by
  have hcv : columnValues d raw = [pyStrip raw] := by
    simp [columnValues, hs]
  refine ⟨?_, ?_, ?_, ?_, ?_, ?_, by decide, by decide, by decide⟩
  · intro h1 h2
    simp [columnTriples, hcv, pieceTriple, h1, truthyLit, h2]
  · intro h1 h2
    simp [columnTriples, hcv, pieceTriple, h1, truthyLit, h2]
  · intro h1 h2
    simp [columnTriples, hcv, pieceTriple, h1, applyConverter, h2]
  · intro h1 h2
    simp [columnTriples, hcv, pieceTriple, h1, applyConverter, h2]
  · intro h1 h2
    rcases Option.isSome_iff_exists.mp h2 with ⟨o, ho⟩
    simp [columnTriples, hcv, pieceTriple, h1, applyConverter, ho]
  · intro h1 h2
    rcases Option.isSome_iff_exists.mp h2 with ⟨o, ho⟩
    simp [columnTriples, hcv, pieceTriple, h1, applyConverter, ho]

/-- Witness for C7: the amount-of-children style descriptor (converter
`strip_dash`) on the padded value `" Paikka "` emits the converted
surviving literal. -/
theorem converter_and_blank_piece_handling_witness :
    columnTriples "s" instanceClass
      { uri := SCHEMA_NS "burial_place", value_separator := some ";",
        converter := some ConverterKind.stripDash } " Paikka " =
      ({(("s", rdfTypeUri, RDFObj.res instanceClass) : Triple),
        (("s", SCHEMA_NS "burial_place", RDFObj.lit "Paikka") : Triple)} : RGraph) :=
  (converter_and_blank_piece_handling "s" instanceClass
    { uri := SCHEMA_NS "burial_place", value_separator := some ";",
      converter := some ConverterKind.stripDash } " Paikka "
    rfl).2.2.2.2.2.1 rfl (by decide)

/-!
## Claim C3
-/

theorem mem_columnTriples_pred {u cls : String} {d : MappingDescr} {v : String}
    {tr : Triple} (h : tr ∈ columnTriples u cls d v) :
    tr.2.1 = rdfTypeUri ∨ tr.2.1 = d.uri := by
  unfold columnTriples at h
  rcases Finset.mem_insert.mp h with h | h
  · left
    rw [h]
  · right
    rcases List.mem_filterMap.mp (List.mem_toFinset.mp h) with ⟨p, _, hp⟩
    unfold pieceTriple at hp
    rcases Option.map_eq_some'.mp hp with ⟨o, _, ho⟩
    rw [← ho]

theorem mapColumns_ok_subset {u cls : String} {columns row : List String} :
    ∀ (l : List (String × MappingDescr)) (acc g : RGraph),
      mapColumns u columns row cls l acc = Except.ok g → acc ⊆ g := by
  intro l
  induction l with
  | nil =>
    intro acc g h
    cases h
    exact Finset.Subset.refl _
  | cons ce rest ih =>
    intro acc g h
    rw [mapColumns] at h
    cases hc : cell columns row ce.1 with
    | none =>
      rw [hc] at h
      cases h
    | some v =>
      rw [hc] at h
      exact fun x hx => ih _ g h (Finset.mem_union_left _ hx)

theorem mapColumns_ok_mem {u cls : String} {columns row : List String} :
    ∀ (l : List (String × MappingDescr)) (acc g : RGraph),
      mapColumns u columns row cls l acc = Except.ok g →
      ∀ tr ∈ g, tr ∈ acc ∨ tr.2.1 = rdfTypeUri ∨ ∃ ce ∈ l, tr.2.1 = ce.2.uri := by
  intro l
  induction l with
  | nil =>
    intro acc g h tr htr
    cases h
    exact Or.inl htr
  | cons ce rest ih =>
    intro acc g h tr htr
    rw [mapColumns] at h
    cases hc : cell columns row ce.1 with
    | none =>
      rw [hc] at h
      cases h
    | some v =>
      rw [hc] at h
      rcases ih _ g h tr htr with hmem | hty | ⟨ce2, hce2, huri⟩
      · rcases Finset.mem_union.mp hmem with ha | hcol
        · exact Or.inl ha
        · rcases mem_columnTriples_pred hcol with hty | huri
          · exact Or.inr (Or.inl hty)
          · exact Or.inr (Or.inr ⟨ce, List.mem_cons_self _ _, huri⟩)
      · exact Or.inr (Or.inl hty)
      · exact Or.inr (Or.inr ⟨ce2, List.mem_cons_of_mem _ hce2, huri⟩)

theorem filter_eq_singleton_of (g : RGraph) (p : String) (target : Triple)
    (htmem : target ∈ g) (hp : target.2.1 = p)
    (huniq : ∀ x ∈ g, x.2.1 = p → x = target) :
    g.filter (fun tr => tr.2.1 = p) = ({target} : RGraph) :=
  Finset.eq_singleton_iff_unique_mem.mpr
    ⟨Finset.mem_filter.mpr ⟨htmem, hp⟩,
     fun x hx => huniq x (Finset.mem_filter.mp hx).1 (Finset.mem_filter.mp hx).2⟩

/-- No mapped predicate collides with the three name predicates, and
neither does the type predicate. -/
theorem mapping_uris_avoid_name_preds :
    ∀ ce ∈ PRISONER_MAPPING,
      ce.2.uri ≠ foafGivenName ∧ ce.2.uri ≠ foafFamilyName ∧
      ce.2.uri ≠ skosPrefLabel := by
  decide

/-- Claim C3: in the statement set of any successfully mapped row there
is exactly one family-name statement and exactly one preferred-label
statement (holding the full display form), the given-name statements
number one exactly when the decomposed given names are non-empty, and
the name-related statements together number three when given names are
non-empty and two otherwise. -/
theorem name_statements_two_or_three (u : String) (columns row : List String)
    (g : RGraph)
    (h : map_row_to_rdf u columns row PRISONER_MAPPING instanceClass = Except.ok g) :
    g.filter (fun tr => tr.2.1 = foafFamilyName) =
      ({((u, foafFamilyName,
          RDFObj.lit (convert_person_name (row.headD "")).2.1) : Triple)} : RGraph) ∧
    g.filter (fun tr => tr.2.1 = skosPrefLabel) =
      ({((u, skosPrefLabel,
          RDFObj.lit (convert_person_name (row.headD "")).2.2) : Triple)} : RGraph) ∧
    (g.filter (fun tr => tr.2.1 = foafGivenName)).card =
      (if (convert_person_name (row.headD "")).1 ≠ "" then 1 else 0) ∧
    (g.filter (fun tr => tr.2.1 = foafGivenName ∨ tr.2.1 = foafFamilyName ∨
        tr.2.1 = skosPrefLabel)).card =
      (if (convert_person_name (row.headD "")).1 ≠ "" then 3 else 2) := by
  cases row with
  | nil => cases h
  | cons name0 rest =>
    rw [map_row_to_rdf] at h
    simp only [List.head?_cons] at h
    simp only [List.headD_cons]
    set fln := convert_person_name name0 with hfln
    set givT : Triple := (u, foafGivenName, RDFObj.lit fln.1) with hgivT
    set famT : Triple := (u, foafFamilyName, RDFObj.lit fln.2.1) with hfamT
    set prefT : Triple := (u, skosPrefLabel, RDFObj.lit fln.2.2) with hprefT
    set base : RGraph :=
      (if fln.1 ≠ "" then ({givT} : RGraph) else (∅ : RGraph)) ∪
      ({famT, prefT} : RGraph) with hbase
    have hsub : base ⊆ g := mapColumns_ok_subset PRISONER_MAPPING base g h
    have hmem := mapColumns_ok_mem PRISONER_MAPPING base g h
    have hfam_mem : famT ∈ base := by
      apply Finset.mem_union_right
      exact Finset.mem_insert_self _ _
    have hpref_mem : prefT ∈ base := by
      apply Finset.mem_union_right
      exact Finset.mem_insert.mpr (Or.inr (Finset.mem_singleton_self _))
    have hty_giv : rdfTypeUri ≠ foafGivenName := by decide
    have hty_fam : rdfTypeUri ≠ foafFamilyName := by decide
    have hty_pref : rdfTypeUri ≠ skosPrefLabel := by decide
    have hgiv_fam : foafGivenName ≠ foafFamilyName := by decide
    have hgiv_pref : foafGivenName ≠ skosPrefLabel := by decide
    have hfam_pref : foafFamilyName ≠ skosPrefLabel := by decide
    have base_case : ∀ x ∈ base, x = givT ∨ x = famT ∨ x = prefT := by
      intro x hx
      rcases Finset.mem_union.mp hx with hx | hx
      · by_cases hne : fln.1 ≠ ""
        · rw [if_pos hne] at hx
          exact Or.inl (Finset.mem_singleton.mp hx)
        · rw [if_neg hne] at hx
          exact absurd hx (Finset.not_mem_empty x)
      · rcases Finset.mem_insert.mp hx with hx | hx
        · exact Or.inr (Or.inl hx)
        · exact Or.inr (Or.inr (Finset.mem_singleton.mp hx))
    have resolve : ∀ x ∈ g,
        (x.2.1 = foafGivenName ∨ x.2.1 = foafFamilyName ∨ x.2.1 = skosPrefLabel) →
        x = givT ∨ x = famT ∨ x = prefT := by
      intro x hx hp
      rcases hmem x hx with hb | hty | ⟨ce, hce, huri⟩
      · exact base_case x hb
      · exfalso
        rcases hp with hp | hp | hp
        · exact hty_giv (hty.symm.trans hp)
        · exact hty_fam (hty.symm.trans hp)
        · exact hty_pref (hty.symm.trans hp)
      · exfalso
        rcases hp with hp | hp | hp
        · exact (mapping_uris_avoid_name_preds ce hce).1 (huri.symm.trans hp)
        · exact (mapping_uris_avoid_name_preds ce hce).2.1 (huri.symm.trans hp)
        · exact (mapping_uris_avoid_name_preds ce hce).2.2 (huri.symm.trans hp)
    have hfam_filter : g.filter (fun tr => tr.2.1 = foafFamilyName) =
        ({famT} : RGraph) := by
      apply filter_eq_singleton_of g foafFamilyName famT (hsub hfam_mem) rfl
      intro x hx hp
      rcases resolve x hx (Or.inr (Or.inl hp)) with h1 | h1 | h1
      · exfalso
        rw [h1] at hp
        exact hgiv_fam hp
      · exact h1
      · exfalso
        rw [h1] at hp
        exact hfam_pref hp.symm
    have hpref_filter : g.filter (fun tr => tr.2.1 = skosPrefLabel) =
        ({prefT} : RGraph) := by
      apply filter_eq_singleton_of g skosPrefLabel prefT (hsub hpref_mem) rfl
      intro x hx hp
      rcases resolve x hx (Or.inr (Or.inr hp)) with h1 | h1 | h1
      · exfalso
        rw [h1] at hp
        exact hgiv_pref hp
      · exfalso
        rw [h1] at hp
        exact hfam_pref hp
      · exact h1
    have hgiv_filter : g.filter (fun tr => tr.2.1 = foafGivenName) =
        (if fln.1 ≠ "" then ({givT} : RGraph) else (∅ : RGraph)) := by
      by_cases hne : fln.1 ≠ ""
      · rw [if_pos hne]
        have hgiv_mem : givT ∈ base := by
          apply Finset.mem_union_left
          rw [if_pos hne]
          exact Finset.mem_singleton_self _
        apply filter_eq_singleton_of g foafGivenName givT (hsub hgiv_mem) rfl
        intro x hx hp
        rcases resolve x hx (Or.inl hp) with h1 | h1 | h1
        · exact h1
        · exfalso
          rw [h1] at hp
          exact hgiv_fam hp.symm
        · exfalso
          rw [h1] at hp
          exact hgiv_pref hp.symm
      · rw [if_neg hne]
        apply Finset.filter_eq_empty_iff.mpr
        intro x hx hp
        have base_case2 : ∀ y ∈ base, y = famT ∨ y = prefT := by
          intro y hy
          rcases Finset.mem_union.mp hy with hy | hy
          · rw [if_neg hne] at hy
            exact absurd hy (Finset.not_mem_empty y)
          · rcases Finset.mem_insert.mp hy with hy | hy
            · exact Or.inl hy
            · exact Or.inr (Finset.mem_singleton.mp hy)
        rcases hmem x hx with hb | hty | ⟨ce, hce, huri⟩
        · rcases base_case2 x hb with h1 | h1
          · rw [h1] at hp
            exact hgiv_fam hp.symm
          · rw [h1] at hp
            exact hgiv_pref hp.symm
        · exact hty_giv (hty.symm.trans hp)
        · exact (mapping_uris_avoid_name_preds ce hce).1 (huri.symm.trans hp)
    have hgivT_ne_famT : givT ≠ famT :=
      fun he => hgiv_fam (congrArg (fun tr => tr.2.1) he)
    have hgivT_ne_prefT : givT ≠ prefT :=
      fun he => hgiv_pref (congrArg (fun tr => tr.2.1) he)
    have hfamT_ne_prefT : famT ≠ prefT :=
      fun he => hfam_pref (congrArg (fun tr => tr.2.1) he)
    have hsplit : g.filter (fun tr => tr.2.1 = foafGivenName ∨
        tr.2.1 = foafFamilyName ∨ tr.2.1 = skosPrefLabel) =
        g.filter (fun tr => tr.2.1 = foafGivenName) ∪
        (g.filter (fun tr => tr.2.1 = foafFamilyName) ∪
         g.filter (fun tr => tr.2.1 = skosPrefLabel)) := by
      rw [← Finset.filter_or, ← Finset.filter_or]
    refine ⟨hfam_filter, hpref_filter, ?_, ?_⟩
    · rw [hgiv_filter]
      by_cases hne : fln.1 ≠ ""
      · rw [if_pos hne, if_pos hne]
        exact Finset.card_singleton _
      · rw [if_neg hne, if_neg hne]
        exact Finset.card_empty
    · rw [hsplit, hgiv_filter, hfam_filter, hpref_filter]
      by_cases hne : fln.1 ≠ ""
      · have hu : ({givT} ∪ ({famT} ∪ {prefT}) : RGraph) =
            insert givT (insert famT {prefT}) := by
          ext x
          simp [or_assoc]
        rw [if_pos hne, if_pos hne, hu]
        rw [Finset.card_insert_of_not_mem (by
          intro hmem2
          rcases Finset.mem_insert.mp hmem2 with h1 | h1
          · exact hgivT_ne_famT h1
          · exact hgivT_ne_prefT (Finset.mem_singleton.mp h1))]
        rw [Finset.card_insert_of_not_mem (by
          intro hmem2
          exact hfamT_ne_prefT (Finset.mem_singleton.mp hmem2))]
        rfl
      · have hu : ((∅ : RGraph) ∪ ({famT} ∪ {prefT})) = insert famT {prefT} := by
          ext x
          simp
        rw [if_neg hne, if_neg hne, hu]
        rw [Finset.card_insert_of_not_mem (by
          intro hmem2
          exact hfamT_ne_prefT (Finset.mem_singleton.mp hmem2))]
        rfl

/-- Witness for C3 on a concrete row: exactly one family-name statement
in the row graph of `blankRow`. -/
theorem name_statements_two_or_three_witness :
    blankRowGraph.filter (fun tr => tr.2.1 = foafFamilyName) =
      ({((prisoner_uri 0, foafFamilyName, RDFObj.lit "Meikäläinen") : Triple)} : RGraph) :=
  (name_statements_two_or_three (prisoner_uri 0) testColumns blankRow
    blankRowGraph (by rfl)).1

/-!
## Claim C6
-/

theorem cell_none_of_not_mem (c : String) :
    ∀ (columns row : List String), c ∉ columns → cell columns row c = none := by
  intro columns
  induction columns with
  | nil =>
    intro row hc
    cases row <;> rfl
  | cons c0 cs ih =>
    intro row hc
    cases row with
    | nil => rfl
    | cons r rs =>
      have hne : ¬(c == c0) = true := by
        simp only [beq_iff_eq]
        intro he
        exact hc (he ▸ List.mem_cons_self c0 cs)
      show List.lookup c ((c0, r) :: cs.zip rs) = none
      rw [List.lookup]
      rw [Bool.of_not_eq_true hne]
      exact ih rs (fun hm => hc (List.mem_cons_of_mem c0 hm))

theorem mapColumns_error_of_missing {u cls : String} {columns row : List String} :
    ∀ (l : List (String × MappingDescr)) (acc : RGraph),
      (∃ ce ∈ l, cell columns row ce.1 = none) →
      ∃ e, mapColumns u columns row cls l acc = Except.error e := by
  intro l
  induction l with
  | nil =>
    intro acc h
    rcases h with ⟨ce, hce, _⟩
    exact absurd hce (List.not_mem_nil ce)
  | cons ce rest ih =>
    intro acc h
    cases hc : cell columns row ce.1 with
    | none =>
      refine ⟨"KeyError: " ++ ce.1, ?_⟩
      rw [mapColumns, hc]
    | some v =>
      rcases h with ⟨ce2, hce2, hnone⟩
      rcases List.mem_cons.mp hce2 with he | he
      · rw [he] at hnone
        rw [hnone] at hc
        cases hc
      · rcases ih _ ⟨ce2, he, hnone⟩ with ⟨e, hrec⟩
        refine ⟨e, ?_⟩
        rw [mapColumns, hc]
        exact hrec

theorem map_row_error_of_missing (u : String) (columns row : List String)
    (h : ∃ ce ∈ PRISONER_MAPPING, cell columns row ce.1 = none) :
    ∃ e, map_row_to_rdf u columns row PRISONER_MAPPING instanceClass =
      Except.error e := by
  cases row with
  | nil => exact ⟨"KeyError: 0", rfl⟩
  | cons a rest =>
    rcases mapColumns_error_of_missing PRISONER_MAPPING _ h with ⟨e, he⟩
    exact ⟨e, he⟩

/-- Claim C6 (counterexample): a mapping column absent from the loaded
table does not make the run fail when the table has no rows — the
mapping is not validated against the table's column set up front, so the
mismatch goes unnoticed and the run completes without error. -/
theorem missing_column_zero_rows_succeeds :
    "syntymäaika" ∈ PRISONER_MAPPING.map (fun ce => ce.1) ∧
    "syntymäaika" ∉ (Table.mk ["foo"] []).columns ∧
    process_rows (Table.mk ["foo"] []) =
      ((∅ : RGraph), build_schema PRISONER_MAPPING, none) := by
  refine ⟨by decide, by decide, rfl⟩

/-- Claim C6 (amended): if the mapping references a column absent from
the table's columns and the table has at least one row, the run fails
with an uncaught lookup error raised while mapping the first row, and no
data-graph statements from any row are produced. -/
theorem missing_column_fails_during_first_row (t : Table) (c : String)
    (hc : c ∈ PRISONER_MAPPING.map (fun ce => ce.1)) (habs : c ∉ t.columns)
    (hrows : t.rows ≠ []) :
    (process_rows t).1 = (∅ : RGraph) ∧ (process_rows t).2.2.isSome = true := by
  rcases List.mem_map.mp hc with ⟨ce, hce, hname⟩
  cases ht : t.rows with
  | nil => exact absurd ht hrows
  | cons row rest =>
    have hmiss : ∃ ce2 ∈ PRISONER_MAPPING, cell t.columns row ce2.1 = none :=
      ⟨ce, hce, by
        rw [hname]
        exact cell_none_of_not_mem c t.columns row habs⟩
    rcases map_row_error_of_missing (prisoner_uri 0) t.columns row hmiss with ⟨e, he⟩
    unfold process_rows
    rw [ht, process_rows_aux, he]
    exact ⟨rfl, rfl⟩

/-- Witness for the amended C6 on a one-row table lacking the mapped
columns. -/
theorem missing_column_fails_during_first_row_witness :
    (process_rows (Table.mk ["foo"] [["x"]])).1 = (∅ : RGraph) ∧
    (process_rows (Table.mk ["foo"] [["x"]])).2.2.isSome = true :=
  missing_column_fails_during_first_row (Table.mk ["foo"] [["x"]])
    "syntymäaika" (by decide) (by decide) (by decide)

/-!
## Claim C10
-/

theorem no_match_of_no_space_paren (s : String)
    (hall : ∀ i k, ¬ matchCond (s.data.drop i) k) :
    read_column_with_sources s = (s, none, false) := by
  have hbest : ∀ i, bestK (s.data.drop i) = none := by
    intro i
    unfold bestK
    rw [List.filterMap_eq_nil.mpr (fun k _ => if_neg (hall i k))]
    rfl
  have hsearch : searchStart s.data = none := by
    unfold searchStart
    rw [List.filterMap_eq_nil.mpr (fun i _ => by rw [hbest i])]
    rfl
  unfold read_column_with_sources
  rw [hsearch]

/-- Claim C10: the inline-source extraction only recognizes a
parenthesized group whose `(` is directly preceded by a space with at
least one character before that space; when no position of the input has
this shape, the original text is returned unchanged, with no sources and
no warning. -/
theorem paren_group_needs_space_before (s : String)
    (h : ∀ j, j < s.data.length → 1 ≤ j →
      ¬(s.data[j]? = some ' ' ∧ s.data[j + 1]? = some '(')) :
    read_column_with_sources s = (s, none, false) := by
  apply no_match_of_no_space_paren
  intro i k hm
  obtain ⟨hk1, _, hsp, hpar, _, _⟩ := hm
  rw [List.drop_drop, List.head?_drop] at hsp
  rw [List.drop_drop, List.head?_drop] at hpar
  have hlt : i + k < s.data.length := by
    by_contra hge
    rw [List.getElem?_eq_none (by omega)] at hsp
    cases hsp
  exact h (i + k) hlt (by omega) ⟨hsp, by
    have : i + (k + 1) = i + k + 1 := by omega
    rw [this] at hpar
    exact hpar⟩

/-- Witness for C10: `"Helsinki(Smith)"` has no space before its
parenthesis and passes through unchanged. -/
theorem paren_group_needs_space_before_witness :
    read_column_with_sources "Helsinki(Smith)" = ("Helsinki(Smith)", none, false) :=
  paren_group_needs_space_before "Helsinki(Smith)" (by decide)

/-!
## Claim C2
-/

/-- Claim C2 (counterexample): on `"x (a (b) c)"` the extraction matches
the inner nested group `(b)`, returning value `"x (a"` and sources
`["b"]`.  The last (and only) top-level parenthesized group of this
input is `(a (b) c)`, so a last-top-level-group reading predicts value
`"x"`, and a no-nested-match reading predicts the unchanged input; the
code produces neither. -/
theorem nested_paren_group_matched :
    read_column_with_sources "x (a (b) c)" = ("x (a", some ["b"], true) ∧
    ("x (a" : String) ≠ "x" ∧ ("x (a" : String) ≠ "x (a (b) c)" := by
  refine ⟨by decide, by decide, by decide⟩

theorem takeWhile_append_stop (p : Char → Bool) :
    ∀ (l : List Char) (x : Char) (r : List Char),
      (∀ c ∈ l, p c = true) → p x = false →
      ((l ++ x :: r).takeWhile p = l ∧ (l ++ x :: r).dropWhile p = x :: r) := by
  intro l
  induction l with
  | nil =>
    intro x r _ hx
    constructor
    · simp [List.takeWhile_cons, hx]
    · simp [List.dropWhile_cons, hx]
  | cons a as ih =>
    intro x r hl hx
    have ha : p a = true := hl a (List.mem_cons_self _ _)
    have hrec := ih x r (fun c hc => hl c (List.mem_cons_of_mem _ hc)) hx
    constructor
    · simp [List.takeWhile_cons, ha, hrec.1]
    · simp [List.dropWhile_cons, ha, hrec.2]

theorem takeWhile_all_true (p : Char → Bool) :
    ∀ l : List Char, (∀ c ∈ l, p c = true) → l.takeWhile p = l := by
  intro l
  induction l with
  | nil => intro _; rfl
  | cons a as ih =>
    intro hl
    simp [List.takeWhile_cons, hl a (List.mem_cons_self _ _),
      ih (fun c hc => hl c (List.mem_cons_of_mem _ hc))]

theorem filterMap_range_getLast (P : Nat → Prop) [DecidablePred P] (m : Nat) :
    ∀ n, P m → m < n → (∀ k, m < k → ¬ P k) →
      ((List.range n).filterMap
        (fun k => if P k then some k else none)).getLast? = some m := by
  intro n
  induction n with
  | zero => intro _ h; omega
  | succ n ih =>
    intro hm hmn habove
    rw [List.range_succ, List.filterMap_append]
    rcases Nat.lt_or_ge m n with h | h
    · have hn : (([n] : List Nat).filterMap
          (fun k => if P k then some k else none)) = [] := by
        simp [habove n h]
      rw [hn, List.append_nil]
      exact ih hm h habove
    · have hmn2 : m = n := by omega
      subst hmn2
      have hn : (([m] : List Nat).filterMap
          (fun k => if P k then some k else none)) = [m] := by
        simp [hm]
      rw [hn]
      exact List.getLast?_concat _

theorem filterMap_range_head {α : Type} (f : Nat → Option α) (n : Nat) (x : α)
    (h0 : f 0 = some x) (hn : 0 < n) :
    ((List.range n).filterMap f).head? = some x := by
  cases n with
  | zero => omega
  | succ n =>
    rw [List.range_succ_eq_map]
    simp [List.filterMap_cons, h0]

theorem data_ne_nil_of_ne_empty {s : String} (h : s ≠ "") : s.data ≠ [] := by
  intro hd
  apply h
  apply String.ext
  rw [hd]

/-- The shape of the result when the search finds a match. -/
theorem read_of_search_some (s : String) (i k : Nat)
    (h : searchStart s.data = some (i, k)) :
    read_column_with_sources s =
      (String.mk ((s.data.drop i).take k),
       some ((strSplitChar ','
          (String.mk (((s.data.drop i).drop (k + 2)).takeWhile noParenChar))).map
            pyStrip),
       !(((((s.data.drop i).drop (k + 2)).dropWhile noParenChar).drop
            1).takeWhile nonNl).isEmpty) := by
  unfold read_column_with_sources
  rw [h]

/-- Claim C2 (amended): the extraction finds the last parenthesized
group whose content holds no parentheses and whose `(` is preceded by a
space and at least one character: for an input of the shape
`value (sources)trailing` — value non-empty and newline-free, sources
non-empty and parenthesis-free, trailing free of `(` and newlines — the
returned value is the text before the group, the sources are the
comma-split trimmed labels inside it, and the warning fires exactly when
the trailing content is non-empty; an input containing no `(` at all is
returned unchanged with no sources and no warning. -/
theorem last_simple_paren_group_extracted :
    (∀ p inner t : String, p ≠ "" → (∀ c ∈ p.data, c ≠ '\n') →
      inner ≠ "" → (∀ c ∈ inner.data, c ≠ '(' ∧ c ≠ ')') →
      (∀ c ∈ t.data, c ≠ '(' ∧ c ≠ '\n') →
      read_column_with_sources (p ++ " (" ++ inner ++ ")" ++ t) =
        (p, some ((strSplitChar ',' inner).map pyStrip), !t.data.isEmpty)) ∧
    (∀ s : String, (∀ c ∈ s.data, c ≠ '(') →
      read_column_with_sources s = (s, none, false)) := by
  constructor
  · intro p inner t hp hpn hi hin ht
    have hdata : (p ++ " (" ++ inner ++ ")" ++ t).data =
        p.data ++ (' ' :: '(' :: (inner.data ++ ')' :: t.data)) := by
      simp [String.data_append]
    have hpne : p.data ≠ [] := data_ne_nil_of_ne_empty hp
    have hine : inner.data ≠ [] := data_ne_nil_of_ne_empty hi
    have hplen : 1 ≤ p.data.length := List.length_pos.mpr hpne
    set L : List Char := p.data ++ (' ' :: '(' :: (inner.data ++ ')' :: t.data))
      with hL
    have hlen : L.length = p.data.length + (inner.data.length + t.data.length + 3) := by
      simp [hL, List.length_append]
      try omega
    have hdropP : L.drop p.data.length = ' ' :: '(' :: (inner.data ++ ')' :: t.data) :=
      List.drop_left _ _
    have htakeP : L.take p.data.length = p.data := List.take_left _ _
    have hdrop1 : L.drop (p.data.length + 1) = '(' :: (inner.data ++ ')' :: t.data) := by
      rw [← List.drop_drop, hdropP]
      rfl
    have hdrop2 : L.drop (p.data.length + 2) = inner.data ++ ')' :: t.data := by
      rw [← List.drop_drop, hdropP]
      rfl
    have hinall : ∀ c ∈ inner.data, noParenChar c = true := by
      intro c hc
      simp only [noParenChar, Bool.and_eq_true, decide_eq_true_eq]
      exact hin c hc
    have htw := takeWhile_append_stop noParenChar inner.data ')' t.data hinall rfl
    have hm1 : matchCond L p.data.length := by
      refine ⟨hplen, ?_, ?_, ?_, ?_, ?_⟩
      · rw [htakeP]
        intro c hc
        simp only [nonNl, decide_eq_true_eq]
        exact hpn c hc
      · rw [hdropP]
        rfl
      · rw [hdrop1]
        rfl
      · rw [hdrop2, htw.1]
        exact hine
      · rw [hdrop2, htw.2]
        rfl
    have habove : ∀ k, p.data.length < k → ¬ matchCond L k := by
      intro k hk hm
      obtain ⟨_, _, _, hpar, _, _⟩ := hm
      rw [List.head?_drop] at hpar
      have hL2 : L = (p.data ++ [' ', '(']) ++ (inner.data ++ ')' :: t.data) := by
        simp [hL]
      rw [hL2, List.getElem?_append_right (by
        simp only [List.length_append, List.length_cons, List.length_nil]
        omega)] at hpar
      have hmem : '(' ∈ inner.data ++ ')' :: t.data := by
        rcases List.getElem?_eq_some.mp hpar with ⟨hb, hget⟩
        rw [← hget]
        exact List.getElem_mem hb
      rcases List.mem_append.mp hmem with hmm | hmm
      · exact (hin '(' hmm).1 rfl
      · rcases List.mem_cons.mp hmm with hmm | hmm
        · cases hmm
        · exact (ht '(' hmm).1 rfl
    have hbest : bestK L = some p.data.length := by
      unfold bestK
      exact filterMap_range_getLast (matchCond L) p.data.length L.length
        hm1 (by omega) habove
    have hsearch : searchStart L = some (0, p.data.length) := by
      unfold searchStart
      apply filterMap_range_head
      · rw [List.drop_zero, hbest]
      · omega
    have hsearch2 : searchStart (p ++ " (" ++ inner ++ ")" ++ t).data =
        some (0, p.data.length) := by
      rw [hdata]
      exact hsearch
    rw [read_of_search_some _ 0 p.data.length hsearch2]
    rw [hdata]
    rw [List.drop_zero]
    rw [htakeP, hdrop2, htw.1, htw.2]
    have hmkp : String.mk p.data = p := rfl
    have hmki : String.mk inner.data = inner := rfl
    rw [hmkp, hmki]
    have htrash : ((')' :: t.data).drop 1).takeWhile nonNl = t.data := by
      show (t.data.takeWhile nonNl) = t.data
      apply takeWhile_all_true
      intro c hc
      simp only [nonNl, decide_eq_true_eq]
      exact (ht c hc).2
    rw [htrash]
  · intro s hs
    apply no_match_of_no_space_paren
    intro i k hm
    obtain ⟨_, _, _, hpar, _, _⟩ := hm
    rw [List.drop_drop, List.head?_drop] at hpar
    rcases List.getElem?_eq_some.mp hpar with ⟨hb, hget⟩
    have : '(' ∈ s.data := by
      rw [← hget]
      exact List.getElem_mem hb
    exact hs '(' this rfl

/-- Witness for the amended C2 on `"Helsinki (Smith, Jones) extra"`. -/
theorem last_simple_paren_group_extracted_witness :
    read_column_with_sources "Helsinki (Smith, Jones) extra" =
      ("Helsinki", some ["Smith", "Jones"], true) :=
  last_simple_paren_group_extracted.1 "Helsinki" "Smith, Jones" " extra"
    (by decide) (by decide) (by decide) (by decide) (by decide)

end WarPrisoners
